import Mathlib

/-!
# Verification development for `hphp/runtime/base/execution-context.h`

A shallow embedding of the `ExecutionContext` interface of the HipHop virtual
machine.  Functions whose bodies are given in the header are transcribed from
it.  Functions that the header only declares are modelled from the design
document, and every such definition says so in its doc comment.

Conventions of the embedding:

* a C++ pointer is its address, a natural number; `nullptr` is address `0`;
* a `smart::vector` / `TinyVector` is a `List` whose *last* element is `back()`;
* a member function that may write to the object returns the new object;
* a C++ `int` is an `Int`; where arithmetic is done on it the result is
  wrapped to 32 bits by `wrapInt32`.
-/

namespace HPHP

/-! ## Basic types -/

/-- A machine address (`PC`, `ActRec*`, `TypedValue*`, `StringBuffer*`, ...). -/
abbrev Ptr := Nat

/-- The null pointer. -/
def nullptr : Ptr := 0

/-- Pointers are 64 bits wide: address arithmetic is taken modulo this. -/
def ptrModulus : Nat := 2 ^ 64

/-- Wrap an integer to the range of a 32-bit two's complement `int`. -/
def wrapInt32 (x : Int) : Int := (x + 2 ^ 31) % 2 ^ 32 - 2 ^ 31

/-- The values an `int` can hold. -/
def isInt32 (x : Int) : Prop := -(2 ^ 31) ≤ x ∧ x < 2 ^ 31

instance (x : Int) : Decidable (isInt32 x) := by
  unfold isInt32
  exact inferInstance

/-- Transcription of `struct VMState`: the saved registers of a VM session. -/
structure VMState where
  pc : Ptr
  fp : Ptr
  firstAR : Ptr
  sp : Ptr
deriving DecidableEq, Repr

/-- Transcription of `enum class CallType`. -/
inductive CallType where
  | ClsMethod
  | ObjMethod
  | CtorMethod
deriving DecidableEq, Repr

/-- Transcription of `enum class LookupResult`. -/
inductive LookupResult where
  | MethodFoundWithThis
  | MethodFoundNoThis
  | MagicCallFound
  | MagicCallStaticFound
  | MethodNotFound
deriving DecidableEq, Repr

/-! ## `InclOpFlags` -/

/-- Transcription of `enum class InclOpFlags`.  The enumeration has underlying
type `int` and `operator|` casts arbitrary bit combinations back into it, so a
value is any `int`; `bits` is its two's complement bit pattern, on which the
C++ operators `|` and `&` act bit by bit. -/
structure InclOpFlags where
  bits : Nat
deriving DecidableEq, Repr

namespace InclOpFlags

/-- Enumerator `Default = 0`. -/
def Default : InclOpFlags := ⟨0⟩
/-- Enumerator `Fatal = 1`. -/
def Fatal : InclOpFlags := ⟨1⟩
/-- Enumerator `Once = 2`. -/
def Once : InclOpFlags := ⟨2⟩
/-- Enumerator `DocRoot = 8`. -/
def DocRoot : InclOpFlags := ⟨8⟩
/-- Enumerator `Relative = 16`. -/
def Relative : InclOpFlags := ⟨16⟩

/-- The five enumerators that the header names. -/
def named : List InclOpFlags := [Default, Fatal, Once, DocRoot, Relative]

/-- Transcription of `operator|(const InclOpFlags&, const InclOpFlags&)`:
`static_cast<InclOpFlags>(static_cast<int>(l) | static_cast<int>(r))`. -/
def or (l r : InclOpFlags) : InclOpFlags := ⟨l.bits ||| r.bits⟩

/-- Transcription of `operator&(const InclOpFlags&, const InclOpFlags&)`:
`static_cast<int>(l) & static_cast<int>(r)` converted to `bool`, that is,
compared with zero. -/
def and (l r : InclOpFlags) : Bool := (l.bits &&& r.bits) != 0

/-- The `operator|` combination of a list of flags, starting from `Default`:
`Default | f₁ | f₂ | ... | fₙ`. -/
def combine (fs : List InclOpFlags) : InclOpFlags := fs.foldl or Default

end InclOpFlags

/-! ## The execution context -/

/-- Modelled from the spec: the `Variant` value type of `complex-types.h`, which
is absent.  Handlers are stored and returned as `Variant`s; only the null value
(a default-constructed `Variant`) and equality of values are needed. -/
inductive Variant where
  | null
  | str (s : String)
  | int (n : Int)
deriving DecidableEq, Repr

/-- Transcription of `enum class ExecutionContext::ErrorState`.  An `enum class`
without a declared base has underlying type `int`, and every `int` can be cast
to it, so an object of the type holds any `int`: `val` is that value.  The
enumerators have no initialisers and so are 0, 1, 2 and 3. -/
structure ErrorState where
  val : Int
deriving DecidableEq, Repr

namespace ErrorState

/-- Enumerator `NoError`, the first, with value 0. -/
def NoError : ErrorState := ⟨0⟩
/-- Enumerator `ErrorRaised`, with value 1. -/
def ErrorRaised : ErrorState := ⟨1⟩
/-- Enumerator `ExecutingUserHandler`, with value 2. -/
def ExecutingUserHandler : ErrorState := ⟨2⟩
/-- Enumerator `ErrorRaisedByUserHandler`, with value 3. -/
def ErrorRaisedByUserHandler : ErrorState := ⟨3⟩

/-- The four enumerators that the header names. -/
def named : List ErrorState :=
  [NoError, ErrorRaised, ExecutingUserHandler, ErrorRaisedByUserHandler]

end ErrorState

/-- Transcription of the data members of `struct ExecutionContext` that the
inline member functions of the header and the handler, error-state and
re-entry interfaces read or write, together with neighbouring members of each
group, which serve as the frame those functions must leave alone. -/
structure ExecutionContext where
  m_transport : Ptr
  m_cwd : String
  m_out : Ptr
  m_implicitFlush : Bool
  m_protectedLevel : Int
  m_rawPostData : String
  m_userErrorHandlers : List (Variant × Int)
  m_userExceptionHandlers : List Variant
  m_errorState : ErrorState
  m_lastError : String
  m_lastErrorNum : Int
  m_errorPage : String
  m_timezone : String
  m_timezoneDefault : String
  m_throwAllErrors : Bool
  m_sandboxId : String
  m_lambdaCounter : Int
  m_nestedVMs : List VMState
  m_nesting : Int
  m_dbgNoBreak : Bool
deriving DecidableEq, Repr

namespace ExecutionContext

/-! ### Handler registration -/

/-- The error handler that is active: `m_userErrorHandlers.back().first`, or a
null `Variant` when no handler is installed. -/
def activeErrorHandler (ec : ExecutionContext) : Variant :=
  match ec.m_userErrorHandlers.getLast? with
  | some p => p.1
  | none => Variant.null

/-- The exception handler that is active: `m_userExceptionHandlers.back()`, or
a null `Variant` when no handler is installed. -/
def activeExceptionHandler (ec : ExecutionContext) : Variant :=
  match ec.m_userExceptionHandlers.getLast? with
  | some h => h
  | none => Variant.null

/-- Modelled from the spec: the body of `pushUserErrorHandler`, which the header
only declares.  The registry is Last-In-First-Out and a registration returns
the previously installed handler: the result is the handler at the back of
`m_userErrorHandlers` (null when there is none) and the new handler is pushed
at the back together with its applicability mask. -/
def pushUserErrorHandler (ec : ExecutionContext) (function : Variant)
    (error_types : Int) : Variant × ExecutionContext :=
  (ec.activeErrorHandler,
   { ec with m_userErrorHandlers := ec.m_userErrorHandlers ++ [(function, error_types)] })

/-- Modelled from the spec: the body of `pushUserExceptionHandler`, which the
header only declares.  Same discipline as `pushUserErrorHandler`, on
`m_userExceptionHandlers`. -/
def pushUserExceptionHandler (ec : ExecutionContext) (function : Variant) :
    Variant × ExecutionContext :=
  (ec.activeExceptionHandler,
   { ec with m_userExceptionHandlers := ec.m_userExceptionHandlers ++ [function] })

/-- Modelled from the spec: the body of `popUserErrorHandler`, which the header
only declares.  Popping removes the most recently installed handler, which
makes the one installed before it active again; popping an empty registry does
nothing. -/
def popUserErrorHandler (ec : ExecutionContext) : ExecutionContext :=
  { ec with m_userErrorHandlers := ec.m_userErrorHandlers.dropLast }

/-- Modelled from the spec: the body of `popUserExceptionHandler`, which the
header only declares.  Same discipline as `popUserErrorHandler`. -/
def popUserExceptionHandler (ec : ExecutionContext) : ExecutionContext :=
  { ec with m_userExceptionHandlers := ec.m_userExceptionHandlers.dropLast }

/-! ### Error state -/

/-- Transcription of `getErrorState() const`: `return m_errorState;`. -/
def getErrorState (ec : ExecutionContext) : ErrorState := ec.m_errorState

/-- Transcription of `setErrorState(ErrorState state)`:
`m_errorState = state;`. -/
def setErrorState (ec : ExecutionContext) (state : ErrorState) : ExecutionContext :=
  { ec with m_errorState := state }

/-! ### Nesting -/

/-- Transcription of `isNested()`: `return m_nesting != 0;`.  The member
function is not `const`, so the context after the call is returned too. -/
def isNested (ec : ExecutionContext) : Bool × ExecutionContext :=
  (ec.m_nesting != 0, ec)

end ExecutionContext

/-- Modelled from the spec: the edges of the error state machine of section
4.7, `NoError → ErrorRaised → ExecutingUserHandler → ErrorRaisedByUserHandler`,
each of which is also taken backwards when the handler returns. -/
def errorStateEdge (a b : ErrorState) : Bool :=
  (a == ErrorState.NoError && b == ErrorState.ErrorRaised)
  || (a == ErrorState.ErrorRaised && b == ErrorState.ExecutingUserHandler)
  || (a == ErrorState.ExecutingUserHandler && b == ErrorState.ErrorRaisedByUserHandler)
  || (a == ErrorState.ErrorRaisedByUserHandler && b == ErrorState.ExecutingUserHandler)
  || (a == ErrorState.ExecutingUserHandler && b == ErrorState.ErrorRaised)
  || (a == ErrorState.ErrorRaised && b == ErrorState.NoError)

/-! ## Re-entry -/

/-- Modelled from the spec: the VM registers `{pc, fp, firstAR, sp}` live
outside `ExecutionContext` (the header has no member for them); the machine
that `pushVMState` and `popVMState` act on is the pair of the live registers
and the context. -/
structure VM where
  regs : VMState
  ec : ExecutionContext
deriving DecidableEq, Repr

/-- Modelled from the spec: the body of `pushVMState(Cell* savedSP)`, which the
header only declares.  The VM State Snapshot `{pc, fp, firstAR, sp}` is pushed
onto the nested-state stack `m_nestedVMs` and the nesting counter goes up by
one.  The stack pointer of the snapshot is the argument `savedSP`, the value
the caller wants `sp` to have after the re-entry. -/
def pushVMState (vm : VM) (savedSP : Ptr) : VM :=
  { vm with
    ec := { vm.ec with
      m_nestedVMs := vm.ec.m_nestedVMs ++
        [{ pc := vm.regs.pc, fp := vm.regs.fp, firstAR := vm.regs.firstAR, sp := savedSP }]
      m_nesting := wrapInt32 (vm.ec.m_nesting + 1) } }

/-- Modelled from the spec: the body of `popVMState()`, which the header only
declares.  The snapshot at the back of `m_nestedVMs` is popped, the registers
are restored from it verbatim and the nesting counter goes down by one.  The
spec gives no behaviour for an empty nested-state stack; the model leaves the
machine as it is. -/
def popVMState (vm : VM) : VM :=
  match vm.ec.m_nestedVMs.getLast? with
  | none => vm
  | some saved =>
    { regs := { pc := saved.pc, fp := saved.fp, firstAR := saved.firstAR, sp := saved.sp }
      ec := { vm.ec with
        m_nestedVMs := vm.ec.m_nestedVMs.dropLast
        m_nesting := wrapInt32 (vm.ec.m_nesting - 1) } }

/-! ## Invocation surfaces -/

/-- Modelled from the spec: the members `func`, `this_`, `cls` and `invName` of
`struct CallCtx`, whose declaration is absent; these are the members the inline
bodies of `invokeFunc` and `invokeFuncFew` read.  `func` is a `const Func*`,
`this_` an `ObjectData*`, `cls` a `Class*` and `invName` a `StringData*`. -/
structure CallCtx where
  func : Ptr
  this_ : Ptr
  cls : Ptr
  invName : Ptr
deriving DecidableEq, Repr

/-- Transcription of `enum ExecutionContext::InvokeFlags`. -/
inductive InvokeFlags where
  | InvokeNormal
  | InvokeCuf
  | InvokePseudoMain
deriving DecidableEq, Repr

/-- The arguments of one call of the six-argument `invokeFuncFew`. -/
structure FewCall where
  retval : Ptr
  f : Ptr
  thisOrCls : Ptr
  invName : Ptr
  argc : Int
  argv : Ptr
deriving DecidableEq, Repr

/-- The arguments of one call of the eight-argument `invokeFunc`. -/
structure FuncCall where
  retval : Ptr
  f : Ptr
  args_ : Variant
  this_ : Ptr
  class_ : Ptr
  varEnv : Ptr
  invName : Ptr
  flags : InvokeFlags
deriving DecidableEq, Repr

namespace ExecutionContext

/-- Transcription of the inline overload
`invokeFunc(TypedValue* retval, const CallCtx& ctx, const Variant& args_, VarEnv* varEnv)`:
`invokeFunc(retval, ctx.func, args_, ctx.this_, ctx.cls, varEnv, ctx.invName);`.
The eight-argument `invokeFunc` is only declared in the header and is a
parameter here; its last parameter `flags` is not passed and takes its default,
`InvokeNormal`. -/
def invokeFuncCtx {α : Type}
    (invokeFunc : ExecutionContext → Ptr → Ptr → Variant → Ptr → Ptr → Ptr → Ptr →
      InvokeFlags → α)
    (ec : ExecutionContext) (retval : Ptr) (ctx : CallCtx) (args_ : Variant) (varEnv : Ptr) : α :=
  invokeFunc ec retval ctx.func args_ ctx.this_ ctx.cls varEnv ctx.invName
    InvokeFlags.InvokeNormal

/-- Transcription of the inline overload
`invokeFuncFew(TypedValue* retval, const Func* f, void* thisOrCls, StringData* invName)`:
`invokeFuncFew(retval, f, thisOrCls, invName, 0, nullptr);`.  The six-argument
`invokeFuncFew` is only declared in the header and is a parameter here. -/
def invokeFuncFewNoArgs {α : Type}
    (invokeFuncFew : ExecutionContext → Ptr → Ptr → Ptr → Ptr → Int → Ptr → α)
    (ec : ExecutionContext) (retval : Ptr) (f : Ptr) (thisOrCls : Ptr) (invName : Ptr) : α :=
  invokeFuncFew ec retval f thisOrCls invName 0 nullptr

/-- Transcription of the inline overload
`invokeFuncFew(TypedValue* retval, const CallCtx& ctx, int argc, const TypedValue* argv)`:
`invokeFuncFew(retval, ctx.func,
   ctx.this_ ? (void*)ctx.this_ : ctx.cls ? (char*)ctx.cls + 1 : nullptr,
   ctx.invName, argc, argv);`.
The addition on `char*` is address arithmetic on a 64-bit pointer. -/
def invokeFuncFewCtx {α : Type}
    (invokeFuncFew : ExecutionContext → Ptr → Ptr → Ptr → Ptr → Int → Ptr → α)
    (ec : ExecutionContext) (retval : Ptr) (ctx : CallCtx) (argc : Int) (argv : Ptr) : α :=
  invokeFuncFew ec retval ctx.func
    (if ctx.this_ ≠ 0 then ctx.this_
     else if ctx.cls ≠ 0 then (ctx.cls + 1) % ptrModulus
     else nullptr)
    ctx.invName argc argv

/-- A stand-in for the six-argument `invokeFuncFew` that reports the arguments
it was called with. -/
def recordFew (_ec : ExecutionContext) (retval f thisOrCls invName : Ptr) (argc : Int)
    (argv : Ptr) : FewCall :=
  { retval := retval, f := f, thisOrCls := thisOrCls, invName := invName, argc := argc,
    argv := argv }

/-- A stand-in for the eight-argument `invokeFunc` that reports the arguments
it was called with. -/
def recordFunc (_ec : ExecutionContext) (retval f : Ptr) (args_ : Variant)
    (this_ class_ varEnv invName : Ptr) (flags : InvokeFlags) : FuncCall :=
  { retval := retval, f := f, args_ := args_, this_ := this_, class_ := class_,
    varEnv := varEnv, invName := invName, flags := flags }

end ExecutionContext

/-! ## Method resolution -/

/-- Modelled from the spec: the access level of a method (public, protected or
private), against which section 4.2 checks the calling class context. -/
inductive Visibility where
  | Public
  | Protected
  | Private
deriving DecidableEq, Repr

/-- Modelled from the spec: the parts of `Func` (its declaration, `func.h`, is
absent) that resolution consults (section 4.2): the method name, the class that
declares it, its access level and its static flag. -/
structure Func where
  name : String
  cls : Nat
  visibility : Visibility
  isStatic : Bool
deriving DecidableEq, Repr

/-- Modelled from the spec: the parts of `Class` (its declaration is absent)
that resolution consults: an identity, the identities of the classes it
descends from, its directly callable methods, and the capabilities of section
9: a magic catch-all for instance calls, one for static calls, a constructor. -/
structure Class where
  id : Nat
  ancestors : List Nat
  methods : List Func
  magicCall : Option Func
  magicCallStatic : Option Func
  ctor : Option Func
deriving DecidableEq, Repr

/-- Modelled from the spec: visibility compatibility of a method with the
calling class context (section 4.2, "respecting protected/private access
against the calling class context").  A public method is visible from
anywhere, a private one from its declaring class only, a protected one from its
declaring class and the classes that descend from it. -/
def visibleFrom (f : Func) (pctx : Option Class) : Bool :=
  match f.visibility, pctx with
  | Visibility.Public, _ => true
  | Visibility.Protected, some c => c.id == f.cls || c.ancestors.contains f.cls
  | Visibility.Private, some c => c.id == f.cls
  | _, none => false

namespace ExecutionContext

/-- Modelled from the spec: the body of `lookupMethodCtx` (called with
`raise = false`, its default), which the header only declares.  It looks for a
direct, visibility-compatible method match: the method of the class with the
given name, if the calling context may access it.  Constructor lookup is the
same lookup restricted to constructors. -/
def lookupMethodCtx (cls : Class) (methodName : String) (pctx : Option Class)
    (lookupType : CallType) : Option Func :=
  match lookupType with
  | CallType.CtorMethod =>
    match cls.ctor with
    | some f => if visibleFrom f pctx then some f else none
    | none => none
  | _ =>
    match cls.methods.find? (fun f => f.name == methodName) with
    | some f => if visibleFrom f pctx then some f else none
    | none => none

/-- Modelled from the spec: the body of `lookupObjMethod` (with `raise = false`),
which the header only declares.  A direct match wins and is tagged by whether
the method takes a subject; if there is none the lookup falls back to the magic
catch-all of the class, if it declares one; otherwise the method is not found.
The second component is the out-parameter `f`. -/
def lookupObjMethod (cls : Class) (methodName : String) (ctx : Option Class) :
    LookupResult × Option Func :=
  match lookupMethodCtx cls methodName ctx CallType.ObjMethod with
  | some f =>
    (if f.isStatic then LookupResult.MethodFoundNoThis else LookupResult.MethodFoundWithThis,
     some f)
  | none =>
    match cls.magicCall with
    | some g => (LookupResult.MagicCallFound, some g)
    | none => (LookupResult.MethodNotFound, none)

/-- Modelled from the spec: the body of `lookupClsMethod` (with `raise = false`),
which the header only declares.  A direct match wins; it comes with the subject
when an object is at hand and the method is not static.  Otherwise the lookup
falls back, in the order of section 9, to the magic catch-all for instance
calls, which needs an object, and then to the static catch-all. -/
def lookupClsMethod (cls : Class) (methodName : String) (this_ : Ptr) (ctx : Option Class) :
    LookupResult × Option Func :=
  match lookupMethodCtx cls methodName ctx CallType.ClsMethod with
  | some f =>
    (if this_ ≠ 0 ∧ f.isStatic = false then LookupResult.MethodFoundWithThis
     else LookupResult.MethodFoundNoThis,
     some f)
  | none =>
    match (if this_ ≠ 0 then cls.magicCall else none) with
    | some g => (LookupResult.MagicCallFound, some g)
    | none =>
      match cls.magicCallStatic with
      | some g => (LookupResult.MagicCallStaticFound, some g)
      | none => (LookupResult.MethodNotFound, none)

/-- Modelled from the spec: the body of `lookupCtorMethod` (with `raise = false`),
which the header only declares: the same lookup restricted to constructors, and
a class without constructor is reported as `MethodNotFound`, which the caller
tolerates. -/
def lookupCtorMethod (cls : Class) : LookupResult × Option Func :=
  match lookupMethodCtx cls "" none CallType.CtorMethod with
  | some f => (LookupResult.MethodFoundWithThis, some f)
  | none => (LookupResult.MethodNotFound, none)

end ExecutionContext

/-! ## Suspendable frames -/

/-- Modelled from the spec: the states of a Suspendable Frame (section 9). -/
inductive ResumableState where
  | Suspended
  | Running
  | Completed
deriving DecidableEq, Repr

/-- Modelled from the spec: the parts of a Suspendable Frame (`Resumable`, whose
declaration is absent) that suspension and resumption act on: its state, the
program counter to resume at, and the value or exception that the pending
resumption injects. -/
structure Resumable where
  state : ResumableState
  resumePC : Ptr
  awaitResult : Option Variant
  exception : Option Ptr
deriving DecidableEq, Repr

/-- Whether an entry point of the suspension engine ran or reported a usage
error. -/
inductive FrameStatus where
  | Done
  | UsageError
deriving DecidableEq, Repr

namespace ExecutionContext

/-- Modelled from the spec: the effect of `resumeAsyncFunc` on the frame; the
header only declares the function.  A suspended frame is resumed with a value;
resuming a running or completed frame is a usage error, reported and not
retried, which leaves the frame alone. -/
def resumeAsyncFunc (resumable : Resumable) (_freeObj : Ptr) (awaitResult : Variant) :
    FrameStatus × Resumable :=
  match resumable.state with
  | ResumableState.Suspended =>
    (FrameStatus.Done,
     { resumable with
       state := ResumableState.Running, awaitResult := some awaitResult, exception := none })
  | _ => (FrameStatus.UsageError, resumable)

/-- Modelled from the spec: the effect of `resumeAsyncFuncThrow` on the frame;
the header only declares the function.  As `resumeAsyncFunc`, injecting an
exception instead of a value. -/
def resumeAsyncFuncThrow (resumable : Resumable) (_freeObj : Ptr) (exception : Ptr) :
    FrameStatus × Resumable :=
  match resumable.state with
  | ResumableState.Suspended =>
    (FrameStatus.Done,
     { resumable with
       state := ResumableState.Running, awaitResult := none, exception := some exception })
  | _ => (FrameStatus.UsageError, resumable)

/-- Modelled from the spec: the effect of `contEnterImpl`, generator entry, on
the frame; the header only declares the function.  The iteration driver resumes
a suspended generator; entering a running or completed one is a usage error. -/
def contEnterImpl (resumable : Resumable) : FrameStatus × Resumable :=
  match resumable.state with
  | ResumableState.Suspended =>
    (FrameStatus.Done, { resumable with state := ResumableState.Running })
  | _ => (FrameStatus.UsageError, resumable)

/-- Modelled from the spec: the effect on the frame of a suspension opcode, common
to `yield`, `asyncSuspendE` and `asyncSuspendR`: the running frame records the
program counter to resume at and becomes suspended.  Only a running frame can
suspend. -/
def suspendAt (resumable : Resumable) (pc : Ptr) : FrameStatus × Resumable :=
  match resumable.state with
  | ResumableState.Running =>
    (FrameStatus.Done,
     { resumable with
       state := ResumableState.Suspended, resumePC := pc, awaitResult := none,
       exception := none })
  | _ => (FrameStatus.UsageError, resumable)

/-- Modelled from the spec: the effect on the frame of `yield`, which the header
only declares: the generator suspends at `pc`, producing a key/value pair for
the iteration driver. -/
def yield (resumable : Resumable) (pc : Ptr) (_key : Option Variant) (_value : Variant) :
    FrameStatus × Resumable :=
  suspendAt resumable pc

/-- Modelled from the spec: the effect on the frame of `asyncSuspendE`, which the
header only declares: the async function suspends at `pc`, awaiting. -/
def asyncSuspendE (resumable : Resumable) (pc : Ptr) (_iters : Int) :
    FrameStatus × Resumable :=
  suspendAt resumable pc

/-- Modelled from the spec: the effect on the frame of `asyncSuspendR`, which the
header only declares: the resumed async function suspends again at `pc`. -/
def asyncSuspendR (resumable : Resumable) (pc : Ptr) : FrameStatus × Resumable :=
  suspendAt resumable pc

/-- Modelled from the spec: the effect on the frame of `ret`, which the header
only declares, when a resumed frame runs to final completion. -/
def ret (resumable : Resumable) : FrameStatus × Resumable :=
  match resumable.state with
  | ResumableState.Running =>
    (FrameStatus.Done, { resumable with state := ResumableState.Completed })
  | _ => (FrameStatus.UsageError, resumable)

end ExecutionContext

/-- The entry points that act on a Suspendable Frame, with their arguments. -/
inductive FrameOp where
  | resumeAsyncFunc (freeObj : Ptr) (awaitResult : Variant)
  | resumeAsyncFuncThrow (freeObj : Ptr) (exception : Ptr)
  | contEnterImpl
  | yield (pc : Ptr) (key : Option Variant) (value : Variant)
  | asyncSuspendE (pc : Ptr) (iters : Int)
  | asyncSuspendR (pc : Ptr)
  | ret
deriving DecidableEq, Repr

/-- One transition of a Suspendable Frame. -/
def Resumable.step (r : Resumable) : FrameOp → FrameStatus × Resumable
  | FrameOp.resumeAsyncFunc freeObj v => ExecutionContext.resumeAsyncFunc r freeObj v
  | FrameOp.resumeAsyncFuncThrow freeObj e => ExecutionContext.resumeAsyncFuncThrow r freeObj e
  | FrameOp.contEnterImpl => ExecutionContext.contEnterImpl r
  | FrameOp.yield pc key value => ExecutionContext.yield r pc key value
  | FrameOp.asyncSuspendE pc iters => ExecutionContext.asyncSuspendE r pc iters
  | FrameOp.asyncSuspendR pc => ExecutionContext.asyncSuspendR r pc
  | FrameOp.ret => ExecutionContext.ret r

/-! ## Output buffer and the encoded call subject -/

namespace ExecutionContext

/-- Transcription of `swapOutputBuffer(StringBuffer *sb)`:
`StringBuffer *current = m_out; m_out = sb; return current;`. -/
def swapOutputBuffer (ec : ExecutionContext) (sb : Ptr) : Ptr × ExecutionContext :=
  (ec.m_out, { ec with m_out := sb })

/-- The word that `invokeFuncFew(retval, ctx, argc, argv)` passes as `thisOrCls`
to the six-argument `invokeFuncFew`, read off the recording stand-in. -/
def encodedSubject (ec : ExecutionContext) (retval : Ptr) (ctx : CallCtx) (argc : Int)
    (argv : Ptr) : Ptr :=
  (ec.invokeFuncFewCtx recordFew retval ctx argc argv).thisOrCls

end ExecutionContext

/-- An aligned address: null, or a non-zero even address below `2^64 - 1`. -/
def isAlignedPtr (p : Ptr) : Prop := p % 2 = 0 ∧ p < ptrModulus - 1

instance (p : Ptr) : Decidable (isAlignedPtr p) := by
  unfold isAlignedPtr
  exact inferInstance

/-- The low bit of a word. -/
def lowBit (w : Ptr) : Nat := w % 2

/-- A word with its low bit cleared. -/
def clearLowBit (w : Ptr) : Ptr := w - w % 2

/-- The subject of a call context: the object, and the class when there is no
object. -/
def CallCtx.subject (ctx : CallCtx) : Ptr × Ptr :=
  (ctx.this_, if ctx.this_ ≠ 0 then nullptr else ctx.cls)

/-! ## Sample values -/

/-- A context at the start of a request: no handler, no error, no nesting. -/
def sampleContext : ExecutionContext :=
  { m_transport := 4096, m_cwd := "/var/www", m_out := 8192, m_implicitFlush := false,
    m_protectedLevel := 0, m_rawPostData := "", m_userErrorHandlers := [],
    m_userExceptionHandlers := [], m_errorState := ErrorState.NoError, m_lastError := "",
    m_lastErrorNum := 0, m_errorPage := "", m_timezone := "UTC", m_timezoneDefault := "UTC",
    m_throwAllErrors := false, m_sandboxId := "", m_lambdaCounter := 0, m_nestedVMs := [],
    m_nesting := 0, m_dbgNoBreak := false }

/-- A machine running its outermost session. -/
def sampleVM : VM :=
  { regs := { pc := 1000, fp := 2000, firstAR := 2000, sp := 3000 }, ec := sampleContext }

/-- A nested session that runs to completion: it leaves the registers at
values of its own and the nested-state stack and counter as it found them. -/
def sampleSession (vm : VM) : VM :=
  { vm with regs := { pc := 5000, fp := 6000, firstAR := 6000, sp := 7000 } }

/-- A call context with an object subject (and a class, which is ignored). -/
def sampleObjectCtx : CallCtx := { func := 512, this_ := 4096, cls := 8192, invName := 0 }

/-- A call context with a class subject only. -/
def sampleClassCtx : CallCtx := { func := 512, this_ := 0, cls := 8192, invName := 0 }

/-- A call context with no subject. -/
def sampleFreeCtx : CallCtx := { func := 512, this_ := 0, cls := 0, invName := 0 }

/-- A public instance method `foo`. -/
def sampleFoo : Func :=
  { name := "foo", cls := 7, visibility := Visibility.Public, isStatic := false }

/-- The magic catch-all for instance calls. -/
def sampleMagicCall : Func :=
  { name := "__call", cls := 7, visibility := Visibility.Public, isStatic := false }

/-- The magic catch-all for static calls. -/
def sampleMagicCallStatic : Func :=
  { name := "__callStatic", cls := 7, visibility := Visibility.Public, isStatic := true }

/-- A class with the direct method `foo` and both catch-alls. -/
def sampleClass : Class :=
  { id := 7, ancestors := [], methods := [sampleFoo], magicCall := some sampleMagicCall,
    magicCallStatic := some sampleMagicCallStatic, ctor := none }

/-- A frame in the given state. -/
def sampleFrame (st : ResumableState) : Resumable :=
  { state := st, resumePC := 1200, awaitResult := none, exception := none }

/-! ## Theorems -/

/-! ### Helper lemmas -/

theorem wrapInt32_succ_pred (n : Int) (h : isInt32 n) :
    wrapInt32 (wrapInt32 (n + 1) - 1) = n := by
  unfold wrapInt32 isInt32 at *
  omega

theorem lor_eq_zero_iff (a b : Nat) : a ||| b = 0 ↔ a = 0 ∧ b = 0 := by
  constructor
  · intro h
    constructor
    · apply Nat.eq_of_testBit_eq
      intro i
      have hi := congrArg (fun n => Nat.testBit n i) h
      simp only [Nat.testBit_or, Nat.zero_testBit, Bool.or_eq_false_iff] at hi
      simp [hi.1]
    · apply Nat.eq_of_testBit_eq
      intro i
      have hi := congrArg (fun n => Nat.testBit n i) h
      simp only [Nat.testBit_or, Nat.zero_testBit, Bool.or_eq_false_iff] at hi
      simp [hi.2]
  · rintro ⟨rfl, rfl⟩
    rfl

theorem lor_land_ne_zero (a b f : Nat) :
    (a ||| b) &&& f ≠ 0 ↔ a &&& f ≠ 0 ∨ b &&& f ≠ 0 := by
  rw [Nat.and_comm (a ||| b) f, Nat.and_or_distrib_left, Nat.and_comm f a, Nat.and_comm f b]
  rw [Ne, lor_eq_zero_iff]
  tauto

theorem InclOpFlags.or_and (a b f : InclOpFlags) :
    (a.or b).and f = true ↔ a.and f = true ∨ b.and f = true := by
  simp only [InclOpFlags.or, InclOpFlags.and, bne_iff_ne]
  exact lor_land_ne_zero a.bits b.bits f.bits

theorem InclOpFlags.foldl_or_and (fs : List InclOpFlags) (acc f : InclOpFlags) :
    (fs.foldl InclOpFlags.or acc).and f = true
      ↔ acc.and f = true ∨ ∃ g ∈ fs, g.and f = true := by
  induction fs generalizing acc with
  | nil => simp
  | cons g gs ih =>
    rw [List.foldl_cons, ih, InclOpFlags.or_and]
    simp only [List.mem_cons, exists_eq_or_imp]
    tauto

theorem InclOpFlags.named_and_iff (g f : InclOpFlags) (hg : g ∈ InclOpFlags.named)
    (hf : f ∈ InclOpFlags.named) (hne : f ≠ InclOpFlags.Default) :
    g.and f = true ↔ g = f := by
  simp only [InclOpFlags.named, List.mem_cons, List.mem_singleton, List.not_mem_nil,
    or_false] at hg hf
  rcases hf with rfl | rfl | rfl | rfl | rfl
  · exact absurd rfl hne
  all_goals
    rcases hg with rfl | rfl | rfl | rfl | rfl <;> decide

/-! ### Claims -/

/-- C1: the handler registries are Last-In-First-Out stacks.  A push returns the
handler that was active before the call, which is the one installed most
recently (`h0` below) and null for an empty registry, and makes the new handler
active; the pop that follows gives back the context exactly as it was before
the push, so the previous handler is active again.  This holds for the
error-handler and for the exception-handler registry. -/
theorem handler_registries_lifo (ec : ExecutionContext) (h h0 : Variant) (mask mask0 : Int)
    (older : List (Variant × Int)) (olderExc : List Variant) :
    ((ec.pushUserErrorHandler h mask).1 = ec.activeErrorHandler
      ∧ ({ ec with m_userErrorHandlers := older ++ [(h0, mask0)] }.pushUserErrorHandler
            h mask).1 = h0
      ∧ ({ ec with m_userErrorHandlers := [] }.pushUserErrorHandler h mask).1 = Variant.null
      ∧ (ec.pushUserErrorHandler h mask).2.activeErrorHandler = h
      ∧ (ec.pushUserErrorHandler h mask).2.popUserErrorHandler = ec
      ∧ (ec.pushUserErrorHandler h mask).2.popUserErrorHandler.activeErrorHandler
          = ec.activeErrorHandler)
    ∧ ((ec.pushUserExceptionHandler h).1 = ec.activeExceptionHandler
      ∧ ({ ec with m_userExceptionHandlers := olderExc ++ [h0] }.pushUserExceptionHandler
            h).1 = h0
      ∧ ({ ec with m_userExceptionHandlers := [] }.pushUserExceptionHandler h).1 = Variant.null
      ∧ (ec.pushUserExceptionHandler h).2.activeExceptionHandler = h
      ∧ (ec.pushUserExceptionHandler h).2.popUserExceptionHandler = ec
      ∧ (ec.pushUserExceptionHandler h).2.popUserExceptionHandler.activeExceptionHandler
          = ec.activeExceptionHandler) := by
  refine ⟨⟨rfl, ?_, ?_, ?_, ?_, ?_⟩, ⟨rfl, ?_, ?_, ?_, ?_, ?_⟩⟩
  · simp [ExecutionContext.pushUserErrorHandler, ExecutionContext.activeErrorHandler]
  · simp [ExecutionContext.pushUserErrorHandler, ExecutionContext.activeErrorHandler]
  · simp [ExecutionContext.pushUserErrorHandler, ExecutionContext.activeErrorHandler]
  · simp [ExecutionContext.pushUserErrorHandler, ExecutionContext.popUserErrorHandler]
  · simp [ExecutionContext.pushUserErrorHandler, ExecutionContext.popUserErrorHandler,
      ExecutionContext.activeErrorHandler]
  · simp [ExecutionContext.pushUserExceptionHandler, ExecutionContext.activeExceptionHandler]
  · simp [ExecutionContext.pushUserExceptionHandler, ExecutionContext.activeExceptionHandler]
  · simp [ExecutionContext.pushUserExceptionHandler, ExecutionContext.activeExceptionHandler]
  · simp [ExecutionContext.pushUserExceptionHandler, ExecutionContext.popUserExceptionHandler]
  · simp [ExecutionContext.pushUserExceptionHandler, ExecutionContext.popUserExceptionHandler,
      ExecutionContext.activeExceptionHandler]

/-- C3: `isNested()` returns true exactly when the nesting counter `m_nesting` is
non-zero, false exactly when it is zero, and it leaves the context as it was. -/
theorem isNested_iff_nesting_ne_zero (ec : ExecutionContext) :
    (ec.isNested.1 = true ↔ ec.m_nesting ≠ 0)
    ∧ (ec.isNested.1 = false ↔ ec.m_nesting = 0)
    ∧ ec.isNested.2 = ec := by
  refine ⟨?_, ?_, rfl⟩
  · simp [ExecutionContext.isNested]
  · simp [ExecutionContext.isNested]

/-- Counterexample to C4: the public member `setErrorState` takes a context in
state `NoError` directly to `ErrorRaisedByUserHandler`, which is not an edge of
the state machine of section 4.7; and it stores the value 7, which is none of
the four named states. -/
theorem setErrorState_leaves_the_machine :
    sampleContext.getErrorState = ErrorState.NoError
    ∧ (sampleContext.setErrorState ErrorState.ErrorRaisedByUserHandler).getErrorState
        = ErrorState.ErrorRaisedByUserHandler
    ∧ errorStateEdge ErrorState.NoError ErrorState.ErrorRaisedByUserHandler = false
    ∧ (sampleContext.setErrorState ⟨7⟩).getErrorState = ⟨7⟩
    ∧ (sampleContext.setErrorState ⟨7⟩).getErrorState ∉ ErrorState.named := by
  decide

/-- C4, amended: `ErrorState` names four distinct values, `NoError`,
`ErrorRaised`, `ExecutingUserHandler` and `ErrorRaisedByUserHandler`.  The public
setter `setErrorState(s)` makes `s` the state whatever the state was before and
whatever `s` is, with no check against the transitions of section 4.7 and none
that `s` is one of the four named values, and changes no other field of the
context; `getErrorState()` returns the stored state.  So after
`setErrorState(s)` the state is one of the four named values exactly when `s`
is. -/
theorem setErrorState_is_unrestricted (ec : ExecutionContext) (s : ErrorState) :
    ErrorState.named.Nodup
    ∧ ErrorState.named.length = 4
    ∧ ec.getErrorState = ec.m_errorState
    ∧ (ec.setErrorState s).getErrorState = s
    ∧ { ec.setErrorState s with m_errorState := ec.m_errorState } = ec
    ∧ ((ec.setErrorState s).getErrorState ∈ ErrorState.named ↔ s ∈ ErrorState.named) := by
  refine ⟨by decide, rfl, rfl, rfl, rfl, ?_⟩
  simp only [ExecutionContext.getErrorState, ExecutionContext.setErrorState]

/-- C10: `InclOpFlags` is a bit set under `operator|` and `operator&`.  For a
list `fs` of named flags and a named flag `f` other than `Default`, the
`operator|` combination of `fs` starting from `Default` has `& f` true exactly
when `f` occurs in `fs`; and `x & Default` and `Default & x` are false for every
flag value `x`. -/
theorem inclOpFlags_is_bit_set (fs : List InclOpFlags) (f x : InclOpFlags)
    (hfs : ∀ g ∈ fs, g ∈ InclOpFlags.named) (hf : f ∈ InclOpFlags.named)
    (hne : f ≠ InclOpFlags.Default) :
    ((InclOpFlags.combine fs).and f = true ↔ f ∈ fs)
    ∧ x.and InclOpFlags.Default = false
    ∧ InclOpFlags.Default.and x = false := by
  refine ⟨?_, ?_, ?_⟩
  · unfold InclOpFlags.combine
    rw [InclOpFlags.foldl_or_and]
    constructor
    · rintro (h | ⟨g, hg, h⟩)
      · simp [InclOpFlags.and, InclOpFlags.Default] at h
      · rw [InclOpFlags.named_and_iff g f (hfs g hg) hf hne] at h
        exact h ▸ hg
    · intro hmem
      exact Or.inr ⟨f, hmem, (InclOpFlags.named_and_iff f f hf hf hne).2 rfl⟩
  · simp [InclOpFlags.and, InclOpFlags.Default]
  · simp [InclOpFlags.and, InclOpFlags.Default]

/-- Witness for C10: in `Default | Fatal | DocRoot | Fatal` the flag `DocRoot`
is set, and `Relative & Default` is false. -/
theorem inclOpFlags_is_bit_set_witness :
    ((InclOpFlags.combine [InclOpFlags.Fatal, InclOpFlags.DocRoot, InclOpFlags.Fatal]).and
        InclOpFlags.DocRoot = true
      ↔ InclOpFlags.DocRoot ∈ [InclOpFlags.Fatal, InclOpFlags.DocRoot, InclOpFlags.Fatal])
    ∧ InclOpFlags.Relative.and InclOpFlags.Default = false
    ∧ InclOpFlags.Default.and InclOpFlags.Relative = false :=
  inclOpFlags_is_bit_set [InclOpFlags.Fatal, InclOpFlags.DocRoot, InclOpFlags.Fatal]
    InclOpFlags.DocRoot InclOpFlags.Relative (by decide) (by decide) (by decide)

/-- C5: the call subject that `invokeFuncFew(retval, ctx, argc, argv)` hands on is
exactly one of object, class or none.  If `ctx.this_` is non-null it is the
object `ctx.this_`, whatever `ctx.cls` is; otherwise, if `ctx.cls` is non-null,
it is the class context, the address of `ctx.cls` plus 1 (in 64-bit address
arithmetic, which is plain addition for every address below the last one);
otherwise it is null. -/
theorem invokeFuncFew_call_subject (ec : ExecutionContext) (retval : Ptr) (ctx : CallCtx)
    (argc : Int) (argv : Ptr) :
    (ctx.this_ ≠ nullptr →
      (ec.invokeFuncFewCtx ExecutionContext.recordFew retval ctx argc argv).thisOrCls
        = ctx.this_)
    ∧ (ctx.this_ = nullptr → ctx.cls ≠ nullptr →
      (ec.invokeFuncFewCtx ExecutionContext.recordFew retval ctx argc argv).thisOrCls
          = (ctx.cls + 1) % ptrModulus
        ∧ (ctx.cls + 1 < ptrModulus →
          (ec.invokeFuncFewCtx ExecutionContext.recordFew retval ctx argc argv).thisOrCls
            = ctx.cls + 1))
    ∧ (ctx.this_ = nullptr → ctx.cls = nullptr →
      (ec.invokeFuncFewCtx ExecutionContext.recordFew retval ctx argc argv).thisOrCls
        = nullptr) := by
  simp only [ExecutionContext.invokeFuncFewCtx, ExecutionContext.recordFew, nullptr]
  refine ⟨?_, ?_, ?_⟩
  · intro h
    simp [h]
  · intro h hc
    simp only [h, hc, ne_eq, not_true_eq_false, not_false_eq_true, if_true, if_false,
      true_and]
    intro hlt
    exact Nat.mod_eq_of_lt hlt
  · intro h hc
    simp [h, hc]

/-- Witness for C5: an object subject, a class subject and no subject. -/
theorem invokeFuncFew_call_subject_witness :
    (sampleContext.invokeFuncFewCtx ExecutionContext.recordFew 64 sampleObjectCtx 2 128).thisOrCls
      = 4096
    ∧ (sampleContext.invokeFuncFewCtx ExecutionContext.recordFew 64 sampleClassCtx 2 128).thisOrCls
      = 8193
    ∧ (sampleContext.invokeFuncFewCtx ExecutionContext.recordFew 64 sampleFreeCtx 2 128).thisOrCls
      = 0 :=
  ⟨(invokeFuncFew_call_subject sampleContext 64 sampleObjectCtx 2 128).1 (by decide),
   ((invokeFuncFew_call_subject sampleContext 64 sampleClassCtx 2 128).2.1 rfl
      (by decide)).2 (by decide),
   (invokeFuncFew_call_subject sampleContext 64 sampleFreeCtx 2 128).2.2 rfl rfl⟩

/-- C9: the convenience forms converge on the primary forms with nothing added
or dropped.  Whatever the eight-argument `invokeFunc` and the six-argument
`invokeFuncFew` do, `invokeFunc(retval, ctx, args, varEnv)` is the call
`invokeFunc(retval, ctx.func, args, ctx.this_, ctx.cls, varEnv, ctx.invName, InvokeNormal)`,
`invokeFuncFew(retval, f, thisOrCls, invName)` is the call
`invokeFuncFew(retval, f, thisOrCls, invName, 0, nullptr)`, and
`invokeFuncFew(retval, ctx, argc, argv)` passes `retval`, `ctx.func`,
`ctx.invName`, `argc` and `argv` unchanged to the six-argument form, on the
same context. -/
theorem convenience_forms_converge {α β : Type}
    (invokeFunc : ExecutionContext → Ptr → Ptr → Variant → Ptr → Ptr → Ptr → Ptr →
      InvokeFlags → α)
    (invokeFuncFew : ExecutionContext → Ptr → Ptr → Ptr → Ptr → Int → Ptr → β)
    (ec : ExecutionContext) (retval f thisOrCls invName varEnv argv : Ptr) (ctx : CallCtx)
    (args : Variant) (argc : Int) :
    ec.invokeFuncCtx invokeFunc retval ctx args varEnv
      = invokeFunc ec retval ctx.func args ctx.this_ ctx.cls varEnv ctx.invName
          InvokeFlags.InvokeNormal
    ∧ ec.invokeFuncCtx ExecutionContext.recordFunc retval ctx args varEnv
      = { retval := retval, f := ctx.func, args_ := args, this_ := ctx.this_,
          class_ := ctx.cls, varEnv := varEnv, invName := ctx.invName,
          flags := InvokeFlags.InvokeNormal }
    ∧ ec.invokeFuncFewNoArgs invokeFuncFew retval f thisOrCls invName
      = invokeFuncFew ec retval f thisOrCls invName 0 nullptr
    ∧ ec.invokeFuncFewNoArgs ExecutionContext.recordFew retval f thisOrCls invName
      = { retval := retval, f := f, thisOrCls := thisOrCls, invName := invName, argc := 0,
          argv := nullptr }
    ∧ (∃ subject : Ptr, ec.invokeFuncFewCtx invokeFuncFew retval ctx argc argv
        = invokeFuncFew ec retval ctx.func subject ctx.invName argc argv)
    ∧ (ec.invokeFuncFewCtx ExecutionContext.recordFew retval ctx argc argv).retval = retval
    ∧ (ec.invokeFuncFewCtx ExecutionContext.recordFew retval ctx argc argv).f = ctx.func
    ∧ (ec.invokeFuncFewCtx ExecutionContext.recordFew retval ctx argc argv).invName
        = ctx.invName
    ∧ (ec.invokeFuncFewCtx ExecutionContext.recordFew retval ctx argc argv).argc = argc
    ∧ (ec.invokeFuncFewCtx ExecutionContext.recordFew retval ctx argc argv).argv = argv :=
  ⟨rfl, rfl, rfl, rfl, ⟨_, rfl⟩, rfl, rfl, rfl, rfl, rfl⟩

/-- C8: a Suspendable Frame is a state machine over `Suspended`, `Running`,
`Completed` in which no transition leaves `Completed`.  Resuming
(`resumeAsyncFunc`, `resumeAsyncFuncThrow`, generator entry) a frame that is
completed or running is reported as a usage error and leaves the frame as it
is; a resumption is carried out exactly when the frame is suspended, and makes
it running. -/
theorem suspendable_frame_machine (r : Resumable) (op : FrameOp) (freeObj e : Ptr)
    (v : Variant) :
    (r.state = ResumableState.Suspended ∨ r.state = ResumableState.Running
      ∨ r.state = ResumableState.Completed)
    ∧ (r.state = ResumableState.Completed → r.step op = (FrameStatus.UsageError, r))
    ∧ ((r.state = ResumableState.Completed ∨ r.state = ResumableState.Running) →
        ExecutionContext.resumeAsyncFunc r freeObj v = (FrameStatus.UsageError, r)
        ∧ ExecutionContext.resumeAsyncFuncThrow r freeObj e = (FrameStatus.UsageError, r)
        ∧ ExecutionContext.contEnterImpl r = (FrameStatus.UsageError, r))
    ∧ (r.state = ResumableState.Suspended →
        ((ExecutionContext.resumeAsyncFunc r freeObj v).1 = FrameStatus.Done
          ∧ (ExecutionContext.resumeAsyncFunc r freeObj v).2.state = ResumableState.Running)
        ∧ ((ExecutionContext.resumeAsyncFuncThrow r freeObj e).1 = FrameStatus.Done
          ∧ (ExecutionContext.resumeAsyncFuncThrow r freeObj e).2.state
              = ResumableState.Running)
        ∧ ((ExecutionContext.contEnterImpl r).1 = FrameStatus.Done
          ∧ (ExecutionContext.contEnterImpl r).2.state = ResumableState.Running))
    ∧ (((ExecutionContext.resumeAsyncFunc r freeObj v).1 = FrameStatus.Done
          ↔ r.state = ResumableState.Suspended)
      ∧ ((ExecutionContext.resumeAsyncFuncThrow r freeObj e).1 = FrameStatus.Done
          ↔ r.state = ResumableState.Suspended)
      ∧ ((ExecutionContext.contEnterImpl r).1 = FrameStatus.Done
          ↔ r.state = ResumableState.Suspended)) := by
  refine ⟨?_, ?_, ?_, ?_, ?_⟩
  · cases r.state <;> simp
  · intro h
    cases op <;>
      simp [Resumable.step, ExecutionContext.resumeAsyncFunc,
        ExecutionContext.resumeAsyncFuncThrow, ExecutionContext.contEnterImpl,
        ExecutionContext.yield, ExecutionContext.asyncSuspendE, ExecutionContext.asyncSuspendR,
        ExecutionContext.suspendAt, ExecutionContext.ret, h]
  · rintro (h | h) <;>
      simp [ExecutionContext.resumeAsyncFunc, ExecutionContext.resumeAsyncFuncThrow,
        ExecutionContext.contEnterImpl, h]
  · intro h
    simp [ExecutionContext.resumeAsyncFunc, ExecutionContext.resumeAsyncFuncThrow,
      ExecutionContext.contEnterImpl, h]
  · cases h : r.state <;>
      simp [ExecutionContext.resumeAsyncFunc, ExecutionContext.resumeAsyncFuncThrow,
        ExecutionContext.contEnterImpl, h]

/-- Witness for C8: a completed frame refuses a resumption and stays as it is, a
running frame refuses one too, and a suspended frame becomes running. -/
theorem suspendable_frame_machine_witness :
    (sampleFrame ResumableState.Completed).step (FrameOp.resumeAsyncFunc 0 (Variant.int 5))
      = (FrameStatus.UsageError, sampleFrame ResumableState.Completed)
    ∧ ExecutionContext.contEnterImpl (sampleFrame ResumableState.Running)
      = (FrameStatus.UsageError, sampleFrame ResumableState.Running)
    ∧ (ExecutionContext.resumeAsyncFuncThrow (sampleFrame ResumableState.Suspended) 0 9000).2.state
      = ResumableState.Running :=
  ⟨(suspendable_frame_machine (sampleFrame ResumableState.Completed)
      (FrameOp.resumeAsyncFunc 0 (Variant.int 5)) 0 9000 (Variant.int 5)).2.1 rfl,
   ((suspendable_frame_machine (sampleFrame ResumableState.Running) FrameOp.ret 0 9000
      (Variant.int 5)).2.2.1 (Or.inr rfl)).2.2,
   ((suspendable_frame_machine (sampleFrame ResumableState.Suspended) FrameOp.ret 0 9000
      (Variant.int 5)).2.2.2.1 rfl).2.1.2⟩

/-! ### Helper lemmas for the encoded subject -/

theorem encodedSubject_eq (ec : ExecutionContext) (retval : Ptr) (ctx : CallCtx) (argc : Int)
    (argv : Ptr) :
    ec.encodedSubject retval ctx argc argv
      = if ctx.this_ ≠ 0 then ctx.this_
        else if ctx.cls ≠ 0 then (ctx.cls + 1) % 2 ^ 64 else 0 := by
  simp [ExecutionContext.encodedSubject, ExecutionContext.invokeFuncFewCtx,
    ExecutionContext.recordFew, ptrModulus, nullptr]

theorem tagWord_facts (t c : Nat) (ht : t % 2 = 0 ∧ t < 2 ^ 64 - 1)
    (hc : c % 2 = 0 ∧ c < 2 ^ 64 - 1) :
    ((if t ≠ 0 then t else if c ≠ 0 then (c + 1) % 2 ^ 64 else 0) = 0 ↔ t = 0 ∧ c = 0)
    ∧ (((if t ≠ 0 then t else if c ≠ 0 then (c + 1) % 2 ^ 64 else 0) ≠ 0
        ∧ (if t ≠ 0 then t else if c ≠ 0 then (c + 1) % 2 ^ 64 else 0) % 2 = 0) ↔ t ≠ 0)
    ∧ ((if t ≠ 0 then t else if c ≠ 0 then (c + 1) % 2 ^ 64 else 0) % 2 = 1
        ↔ t = 0 ∧ c ≠ 0)
    ∧ (t = 0 → c ≠ 0 →
        (if t ≠ 0 then t else if c ≠ 0 then (c + 1) % 2 ^ 64 else 0)
          - (if t ≠ 0 then t else if c ≠ 0 then (c + 1) % 2 ^ 64 else 0) % 2 = c) := by
  obtain ⟨ht1, ht2⟩ := ht
  obtain ⟨hc1, hc2⟩ := hc
  refine ⟨?_, ?_, ?_, ?_⟩
  · split_ifs <;> (constructor <;> (intro h; omega))
  · split_ifs <;> (constructor <;> (intro h; omega))
  · split_ifs <;> (constructor <;> (intro h; first | omega | exact False.elim h))
  · intro h1 h2
    rw [if_neg (by omega), if_pos h2]
    omega

theorem tagWord_inj (t c t2 c2 : Nat) (ht : t % 2 = 0 ∧ t < 2 ^ 64 - 1)
    (hc : c % 2 = 0 ∧ c < 2 ^ 64 - 1) (ht2 : t2 % 2 = 0 ∧ t2 < 2 ^ 64 - 1)
    (hc2 : c2 % 2 = 0 ∧ c2 < 2 ^ 64 - 1)
    (heq : (if t ≠ 0 then t else if c ≠ 0 then (c + 1) % 2 ^ 64 else 0)
      = (if t2 ≠ 0 then t2 else if c2 ≠ 0 then (c2 + 1) % 2 ^ 64 else 0)) :
    t = t2 ∧ (if t ≠ 0 then 0 else c) = (if t2 ≠ 0 then 0 else c2) := by
  obtain ⟨ht1, ht3⟩ := ht
  obtain ⟨hc1, hc3⟩ := hc
  obtain ⟨ht21, ht23⟩ := ht2
  obtain ⟨hc21, hc23⟩ := hc2
  split_ifs at heq ⊢ <;> omega

/-- Counterexample to C11: the context without object and class is aligned and
encodes to the null word, which has low bit 0 and equals `this_` although
`this_` is null. -/
theorem encodedSubject_null_is_even :
    isAlignedPtr sampleFreeCtx.this_ ∧ isAlignedPtr sampleFreeCtx.cls
    ∧ lowBit (sampleContext.encodedSubject 64 sampleFreeCtx 2 128) = 0
    ∧ sampleContext.encodedSubject 64 sampleFreeCtx 2 128 = sampleFreeCtx.this_
    ∧ sampleFreeCtx.this_ = nullptr
    ∧ ¬ ((lowBit (sampleContext.encodedSubject 64 sampleFreeCtx 2 128) = 0
          ∧ sampleContext.encodedSubject 64 sampleFreeCtx 2 128 = sampleFreeCtx.this_)
        ↔ sampleFreeCtx.this_ ≠ nullptr) := by
  decide

/-- C11, amended: the bit-tagged call subject is decodable when pointers are
aligned.  For a context whose `this_` and `cls` are each null or a non-zero even
address below `2^64 - 1`, the encoded word is 0 exactly when both are null; it
is non-zero with low bit 0 exactly when `this_` is non-null, and then it equals
`this_`; it has low bit 1 exactly when `this_` is null and `cls` is non-null,
and then clearing the low bit gives back `cls`.  So two such contexts with
different (object, class-when-no-object) subjects never encode to the same
word. -/
theorem encodedSubject_decodable (ec ec2 : ExecutionContext) (retval retval2 : Ptr)
    (ctx ctx2 : CallCtx) (argc argc2 : Int) (argv argv2 : Ptr)
    (hthis : isAlignedPtr ctx.this_) (hcls : isAlignedPtr ctx.cls)
    (hthis2 : isAlignedPtr ctx2.this_) (hcls2 : isAlignedPtr ctx2.cls) :
    (ec.encodedSubject retval ctx argc argv = 0 ↔ ctx.this_ = nullptr ∧ ctx.cls = nullptr)
    ∧ ((ec.encodedSubject retval ctx argc argv ≠ 0
          ∧ lowBit (ec.encodedSubject retval ctx argc argv) = 0) ↔ ctx.this_ ≠ nullptr)
    ∧ (ctx.this_ ≠ nullptr →
        lowBit (ec.encodedSubject retval ctx argc argv) = 0
        ∧ ec.encodedSubject retval ctx argc argv = ctx.this_)
    ∧ (lowBit (ec.encodedSubject retval ctx argc argv) = 1
        ↔ ctx.this_ = nullptr ∧ ctx.cls ≠ nullptr)
    ∧ (ctx.this_ = nullptr → ctx.cls ≠ nullptr →
        clearLowBit (ec.encodedSubject retval ctx argc argv) = ctx.cls)
    ∧ (ctx.subject ≠ ctx2.subject →
        ec.encodedSubject retval ctx argc argv
          ≠ ec2.encodedSubject retval2 ctx2 argc2 argv2) := by
  rw [encodedSubject_eq ec retval ctx argc argv, encodedSubject_eq ec2 retval2 ctx2 argc2 argv2]
  have hf := tagWord_facts ctx.this_ ctx.cls hthis hcls
  refine ⟨hf.1, hf.2.1, ?_, hf.2.2.1, hf.2.2.2, ?_⟩
  · intro h
    have h0 : ctx.this_ ≠ 0 := h
    rw [if_pos h0]
    exact ⟨hthis.1, rfl⟩
  · intro hne heq
    apply hne
    have hi := tagWord_inj ctx.this_ ctx.cls ctx2.this_ ctx2.cls hthis hcls hthis2 hcls2 heq
    exact Prod.ext hi.1 hi.2

/-- Witness for C11: the object context and the class context are aligned, have
different subjects and encode to different words; the class word has low bit 1
and gives the class back when the bit is cleared. -/
theorem encodedSubject_decodable_witness :
    lowBit (sampleContext.encodedSubject 64 sampleClassCtx 2 128) = 1
    ∧ clearLowBit (sampleContext.encodedSubject 64 sampleClassCtx 2 128) = 8192
    ∧ sampleContext.encodedSubject 64 sampleObjectCtx 2 128 = 4096
    ∧ sampleContext.encodedSubject 64 sampleClassCtx 2 128
        ≠ sampleContext.encodedSubject 32 sampleObjectCtx 0 0 :=
  have h := encodedSubject_decodable sampleContext sampleContext 64 32 sampleClassCtx
    sampleObjectCtx 2 0 128 0 (by decide) (by decide) (by decide) (by decide)
  have h2 := encodedSubject_decodable sampleContext sampleContext 64 32 sampleObjectCtx
    sampleClassCtx 2 0 128 0 (by decide) (by decide) (by decide) (by decide)
  ⟨h.2.2.2.1.2 ⟨rfl, by decide⟩, h.2.2.2.2.1 rfl (by decide), (h2.2.2.1 (by decide)).2,
   h.2.2.2.2.2 (by decide)⟩

/-- C12: `swapOutputBuffer` is an exchange.  `swapOutputBuffer(sb)` returns the
current output buffer, makes `sb` the current buffer and changes no other field
of the context; swapping `sb` in and then swapping the returned buffer back in
returns `sb` and leaves the context exactly as it was at the start. -/
theorem swapOutputBuffer_is_exchange (ec : ExecutionContext) (b sb : Ptr)
    (hb : ec.m_out = b) :
    (ec.swapOutputBuffer sb).1 = b
    ∧ (ec.swapOutputBuffer sb).2.m_out = sb
    ∧ { ec.swapOutputBuffer sb |>.2 with m_out := b } = ec
    ∧ ((ec.swapOutputBuffer sb).2.swapOutputBuffer (ec.swapOutputBuffer sb).1).1 = sb
    ∧ ((ec.swapOutputBuffer sb).2.swapOutputBuffer (ec.swapOutputBuffer sb).1).2 = ec := by
  subst hb
  exact ⟨rfl, rfl, rfl, rfl, rfl⟩

/-- Witness for C12: the sample context, whose buffer is at 8192, swapped with a
buffer at 12288 and back. -/
theorem swapOutputBuffer_is_exchange_witness :
    (sampleContext.swapOutputBuffer 12288).1 = 8192
    ∧ (sampleContext.swapOutputBuffer 12288).2.m_out = 12288
    ∧ ((sampleContext.swapOutputBuffer 12288).2.swapOutputBuffer
        (sampleContext.swapOutputBuffer 12288).1).2 = sampleContext :=
  have h := swapOutputBuffer_is_exchange sampleContext 8192 12288 rfl
  ⟨h.1, h.2.1, h.2.2.2.2⟩

end HPHP
